import Mathlib

/-!
Verification development for PyCurveBug (src/PyCurveBug.py), a curve-tracer
viewer.  The definitions below are a shallow embedding of the program's core:
the frame codec, the acquisition session (`CurveTracerDual.acquire`), the
dataset selection, and the view transform (`fit_to_window`, `reset_view`,
the fixed/auto scale domains and the normalized plot mappings of
`draw_dual_xy_plot` / `draw_trace`).

Python floats are modelled as exact rationals (ℚ); Python ints as ℤ/ℕ.
Serial-port interaction is modelled as an explicit input: either the stream
is not open, or a byte buffer was accumulated by the 500 ms deadline.
-/

set_option maxRecDepth 4000

namespace PyCurveBug

/-! ## Constants (source lines 50-53) -/

/-- Maximum ADC range (`ADC_MAX = 2800`, line 51). -/
def ADC_MAX : ℚ := 2800

/-- Mid-scale ADC reference (`ADC_ORIGIN = 2048`, line 52). -/
def ADC_ORIGIN : ℚ := 2048

/-- Baseline at 7/8 down the screen (`FLOOR_RATIO = 7.0 / 8.0`, line 53).
This constant is defined in the source but never referenced again. -/
def floorRatio : ℚ := 7 / 8

/-! ## Frame codec (inside `acquire`, source lines 1071-1084) -/

/-- One little-endian 16-bit word from two bytes
(`struct.unpack('<H', data[i:i + 2])[0]`, line 1076). -/
def u16le (lo hi : ℕ) : ℕ := lo + 256 * hi

/-- The loop of lines 1075-1077: read the buffer as consecutive little-endian
u16 words, masking each with `0x0FFF`.  (With the guaranteed even length 2016
every iteration consumes exactly two bytes.) -/
def unpackWords : List ℕ → List ℤ
  | lo :: hi :: rest => ((u16le lo hi) &&& 0x0FFF : ℕ) :: unpackWords rest
  | _ => []

/-- Python extended slice `values[0::3]` (every third element, lines
1082-1084 use `values[0::3]`, `values[1::3]`, `values[2::3]`). -/
def everyThird : List α → List α
  | [] => []
  | [a] => [a]
  | [a, _] => [a]
  | a :: _ :: _ :: rest => a :: everyThird rest

/-- Lines 1071-1084: the frame decode.  Fails when the buffer is not exactly
2016 bytes (line 1071) or when it does not yield exactly 1008 words (line
1079); otherwise splits the words into the (drive, dut1, dut2) slices. -/
def decodeFrame (data : List ℕ) : Option (List ℤ × List ℤ × List ℤ) :=
  if data.length ≠ 2016 then none
  else if (unpackWords data).length ≠ 1008 then none
  else some (everyThird (unpackWords data),
             everyThird ((unpackWords data).drop 1),
             everyThird ((unpackWords data).drop 2))

/-- Lines 1086-1087: `[drive_voltage[i] - chN_raw[i] for i in range(len(drive_voltage))]`.
In every decoded frame the two lists have equal length 336, so the `getD`
default is never taken. -/
def deriveCurrents (drive ch : List ℤ) : List ℤ :=
  (List.range drive.length).map fun i => drive.getD i 0 - ch.getD i 0

/-! ## Acquisition session (`CurveTracerDual.acquire`, source lines 1039-1121) -/

/-- The single-byte request token written to the stream (lines 1046-1057):
`T` for standard/low-impedance, `W` for weak/high-impedance excitation. -/
inductive Command where
  | T : Command
  | W : Command
deriving DecidableEq

/-- The data-holding state of `CurveTracerDual` relevant to acquisition:
the standard and weak mode buffer sets, the selector's current-display
sequences, the alternating-mode flip-flop, the freshness flag and the
excitation mode (lines 891-919). -/
structure AcquireState where
  ch1_std : List ℤ
  ch2_std : List ℤ
  ch1_voltage_std : List ℤ
  ch2_voltage_std : List ℤ
  drive_voltage_std : List ℤ
  ch1_weak : List ℤ
  ch2_weak : List ℤ
  ch1_voltage_weak : List ℤ
  ch2_voltage_weak : List ℤ
  drive_voltage_weak : List ℤ
  ch1 : List ℤ
  ch2 : List ℤ
  ch1_voltage : List ℤ
  ch2_voltage : List ℤ
  drive_voltage : List ℤ
  alt_use_weak : Bool
  last_mode_was_weak : Bool
  excitation_mode : ℕ

/-- The `__init__` values (lines 891-919): all sequences empty,
`alt_use_weak = False`, `last_mode_was_weak = False`, `excitation_mode = 0`. -/
def initState : AcquireState :=
  ⟨[], [], [], [], [], [], [], [], [], [], [], [], [], [], [], false, false, 0⟩

/-- What one `acquire` call observes from the serial stream: either the
stream is not open (line 1042), or a byte buffer was accumulated from the
stream by the 500 ms deadline (lines 1063-1069; the read is capped at
`2016 - len(data)` so the buffer never exceeds 2016 bytes). -/
inductive SerialInput where
  | closed : SerialInput
  | received : List ℕ → SerialInput

/-- Lines 1045-1058: choose the command token and target buffer set from the
excitation mode; in alternating mode (`excitation_mode` not 0 or 1) the token
follows the flip-flop and the flip-flop is toggled. -/
def chooseCommand (st : AcquireState) : Command × Bool × AcquireState :=
  if st.excitation_mode = 0 then (Command.T, false, st)
  else if st.excitation_mode = 1 then (Command.W, true, st)
  else ((if st.alt_use_weak then Command.W else Command.T), st.alt_use_weak,
        { st with alt_use_weak := !st.alt_use_weak })

/-- The outcome of one `acquire` call: the boolean result, the token that was
written to the stream (none when the stream was not open), and the state
after the call. -/
structure AcquireResult where
  ok : Bool
  sent : Option Command
  state : AcquireState

/-- `CurveTracerDual.acquire` (lines 1039-1121) as a state transition.
When the stream is not open the call is a no-op returning failure
(lines 1042-1043).  Otherwise the command token is chosen and sent, the
accumulated buffer is decoded (`decodeFrame`, lines 1071-1084), the currents
are derived (lines 1086-1087) and the five sequences replace the buffer set
of the token that was sent, after which the selector's current-display
sequences are re-pointed (lines 1089-1115).  Every failure path returns
before any buffer assignment. -/
def acquire (st : AcquireState) (inp : SerialInput) : AcquireResult :=
  match inp with
  | .closed => ⟨false, none, st⟩
  | .received data =>
    let command := (chooseCommand st).1
    let store_as_weak := (chooseCommand st).2.1
    let st1 := (chooseCommand st).2.2
    match decodeFrame data with
    | none => ⟨false, some command, st1⟩
    | some (drive_voltage, ch1_raw, ch2_raw) =>
      let ch1_current := deriveCurrents drive_voltage ch1_raw
      let ch2_current := deriveCurrents drive_voltage ch2_raw
      let st2 :=
        if store_as_weak then
          { st1 with ch1_voltage_weak := ch1_raw, ch2_voltage_weak := ch2_raw,
                     ch1_weak := ch1_current, ch2_weak := ch2_current,
                     drive_voltage_weak := drive_voltage, last_mode_was_weak := true }
        else
          { st1 with ch1_voltage_std := ch1_raw, ch2_voltage_std := ch2_raw,
                     ch1_std := ch1_current, ch2_std := ch2_current,
                     drive_voltage_std := drive_voltage, last_mode_was_weak := false }
      let st3 :=
        if store_as_weak then
          { st2 with ch1_voltage := st2.ch1_voltage_weak, ch2_voltage := st2.ch2_voltage_weak,
                     ch1 := st2.ch1_weak, ch2 := st2.ch2_weak,
                     drive_voltage := st2.drive_voltage_weak }
        else
          { st2 with ch1_voltage := st2.ch1_voltage_std, ch2_voltage := st2.ch2_voltage_std,
                     ch1 := st2.ch1_std, ch2 := st2.ch2_std,
                     drive_voltage := st2.drive_voltage_std }
      ⟨true, some command, st3⟩

/-! ## View state and view operations (source lines 921-924, 1123-1183,
1503-1513) -/

/-- Pan/zoom view state (lines 922-924): `zoom_level = 1.0`,
`pan_offset_x = 0.0`, `pan_offset_y = 0.0` initially. -/
structure ViewState where
  zoom_level : ℚ
  pan_offset_x : ℚ
  pan_offset_y : ℚ
deriving DecidableEq

/-- The initial view state (lines 922-924). -/
def initView : ViewState := ⟨1, 0, 0⟩

/-- Python `min`/`max` over a non-empty list of ints (`min(all_x)` etc.,
lines 1135-1138).  The empty case never occurs in the program (it is guarded
by the emptiness checks); 0 is an arbitrary total-function default. -/
def listMin : List ℤ → ℤ
  | [] => 0
  | a :: rest => rest.foldl min a

/-- See `listMin`. -/
def listMax : List ℤ → ℤ
  | [] => 0
  | a :: rest => rest.foldl max a

/-- Lines 1128-1133 (and identically lines 1235-1259): the dataset relevant
for range computation — all four voltage lists and all four current lists
when alternating mode has data in both buffer sets, otherwise the
current-display lists. -/
def selData (st : AcquireState) : List ℤ × List ℤ :=
  if st.excitation_mode = 2 ∧ 0 < st.ch1_std.length ∧ 0 < st.ch1_weak.length then
    (st.ch1_voltage_std ++ st.ch2_voltage_std ++ st.ch1_voltage_weak ++ st.ch2_voltage_weak,
     st.ch1_std ++ st.ch2_std ++ st.ch1_weak ++ st.ch2_weak)
  else
    (st.ch1_voltage ++ st.ch2_voltage, st.ch1 ++ st.ch2)

/-- `CurveTracerDual.fit_to_window` (lines 1123-1176).  A no-op when `ch1`
or `ch2` is empty (lines 1125-1126); otherwise computes zoom from the
20%-margined data ranges against the fixed calibration ranges, clamps it to
at most 1.0, and re-centers the pan on the data. -/
def fit_to_window (st : AcquireState) (v : ViewState) : ViewState :=
  if st.ch1 = [] ∨ st.ch2 = [] then v
  else
    let data_x_min : ℚ := (listMin (selData st).1 : ℤ)
    let data_x_max : ℚ := (listMax (selData st).1 : ℤ)
    let data_y_min : ℚ := (listMin (selData st).2 : ℤ)
    let data_y_max : ℚ := (listMax (selData st).2 : ℤ)
    let x_margin := (data_x_max - data_x_min) * (2 / 10)
    let y_margin := (data_y_max - data_y_min) * (2 / 10)
    let data_x_min := data_x_min - x_margin
    let data_x_max := data_x_max + x_margin
    let data_y_min := data_y_min - y_margin
    let data_y_max := data_y_max + y_margin
    let data_x_range := data_x_max - data_x_min
    let data_y_range := data_y_max - data_y_min
    let base_x_min : ℚ := 0
    let base_x_max : ℚ := ADC_MAX
    let y_range : ℚ := ADC_MAX - 700
    let base_y_max := y_range / 8
    let base_y_min := -y_range * 7 / 8
    let base_x_range := base_x_max - base_x_min
    let base_y_range := base_y_max - base_y_min
    let zoom_x := if 0 < data_x_range then base_x_range / data_x_range else 1
    let zoom_y := if 0 < data_y_range then base_y_range / data_y_range else 1
    let zl := min zoom_x zoom_y
    let zl := if 1 < zl then 1 else zl
    let data_x_center := (data_x_min + data_x_max) / 2
    let data_y_center := (data_y_min + data_y_max) / 2
    let base_x_center := (base_x_min + base_x_max) / 2
    let base_y_center := (base_y_min + base_y_max) / 2
    { zoom_level := zl,
      pan_offset_x := data_x_center - base_x_center,
      pan_offset_y := data_y_center - base_y_center }

/-- `CurveTracerDual.reset_view` (lines 1178-1183). -/
def reset_view : ViewState := ⟨1, 0, 0⟩

/-- The user-initiated view commands of the main loop: mouse wheel zoom-in
(line 1510, `zoom_level *= 1.2`), wheel zoom-out with its floor (lines
1512-1513, `zoom_level /= 1.2` then `max(0.1, zoom_level)`), fit-to-window
(line 1496) and reset-view (line 1499). -/
inductive ViewOp where
  | wheelZoomIn : ViewOp
  | wheelZoomOut : ViewOp
  | fit : AcquireState → ViewOp
  | reset : ViewOp

/-- One view command applied to the view state. -/
def viewStep (v : ViewState) : ViewOp → ViewState
  | .wheelZoomIn => { v with zoom_level := v.zoom_level * (12 / 10) }
  | .wheelZoomOut => { v with zoom_level := max (1 / 10) (v.zoom_level / (12 / 10)) }
  | .fit st => fit_to_window st v
  | .reset => reset_view

/-- View states reachable from the initial state by view commands. -/
inductive ReachableView : ViewState → Prop where
  | init : ReachableView initView
  | step (v : ViewState) (op : ViewOp) : ReachableView v → ReachableView (viewStep v op)

/-! ## Plot scales and normalized mappings
(`CurveTracerDual.draw_dual_xy_plot`, lines 1213-1311, and
`CurveTracerDual.draw_trace`, lines 1185-1211) -/

/-- One axis of the auto-scale margining (lines 1261-1272):
`margin = (hi - lo) * 0.1 if hi > lo else 100`, applied on each side,
followed by the `if hi == lo: hi = lo + 1` safeguard.  The same computation
is performed for the voltage axis and the current axis. -/
def autoMargin (lo hi : ℚ) : ℚ × ℚ :=
  let m := if lo < hi then (hi - lo) * (1 / 10) else 100
  let lo2 := lo - m
  let hi2 := hi + m
  (lo2, if hi2 = lo2 then lo2 + 1 else hi2)

/-- The auto-scale policy (lines 1234-1272): per-axis min/max over the
relevant dataset (`selData`), then `autoMargin` on each axis.  Returns
((x_min, x_max), (y_min, y_max)). -/
def autoScaleDomain (st : AcquireState) : (ℚ × ℚ) × (ℚ × ℚ) :=
  (autoMargin (listMin (selData st).1 : ℤ) (listMax (selData st).1 : ℤ),
   autoMargin (listMin (selData st).2 : ℤ) (listMax (selData st).2 : ℤ))

/-- The fixed-scale policy with pan/zoom (lines 1274-1292): the calibrated
base domain `[0, ADC_MAX] × [-(ADC_MAX-700)·7/8, (ADC_MAX-700)/8]`, its span
divided by the zoom level and its center shifted by the pan offset.
Returns ((x_min, x_max), (y_min, y_max)). -/
def fixedScaleDomain (v : ViewState) : (ℚ × ℚ) × (ℚ × ℚ) :=
  let base_x_min : ℚ := 0
  let base_x_max : ℚ := ADC_MAX
  let y_range : ℚ := ADC_MAX - 700
  let base_y_max := y_range / 8
  let base_y_min := -y_range * 7 / 8
  let x_range_visible := (base_x_max - base_x_min) / v.zoom_level
  let y_range_visible := (base_y_max - base_y_min) / v.zoom_level
  let x_center := (base_x_max + base_x_min) / 2 + v.pan_offset_x
  let y_center := (base_y_max + base_y_min) / 2 + v.pan_offset_y
  ((x_center - x_range_visible / 2, x_center + x_range_visible / 2),
   (y_center - y_range_visible / 2, y_center + y_range_visible / 2))

/-- The X normalization of `draw_trace` (lines 1190, 1203):
`(voltage - x_min) / (x_max - x_min) if x_max != x_min else 0.5`. -/
def trace_x_norm (voltage xmin xmax : ℚ) : ℚ :=
  if xmax ≠ xmin then (voltage - xmin) / (xmax - xmin) else 1 / 2

/-- The Y normalization of `draw_trace` (lines 1191, 1204):
`(current - y_min) / (y_max - y_min) if y_max != y_min else 0.5`.
This single, unclamped linear form is the only trace Y-mapping in the
program; it is used for fixed-scale, pan/zoom and auto-scale traces alike. -/
def trace_y_norm (current ymin ymax : ℚ) : ℚ :=
  if ymax ≠ ymin then (current - ymin) / (ymax - ymin) else 1 / 2

/-- Crosshair X normalization (line 1302):
`(ADC_ORIGIN - x_min) / (x_max - x_min) if x_max != x_min else 0.5`. -/
def zero_x_norm (xmin xmax : ℚ) : ℚ :=
  if xmax ≠ xmin then (ADC_ORIGIN - xmin) / (xmax - xmin) else 1 / 2

/-- Crosshair Y normalization (line 1303):
`(0 - y_min) / (y_max - y_min) if y_max != y_min else 0.5`. -/
def zero_y_norm (ymin ymax : ℚ) : ℚ :=
  if ymax ≠ ymin then (0 - ymin) / (ymax - ymin) else 1 / 2

/-- The plot rectangle (a pygame `Rect`): `right = x + width`,
`bottom = y + height`. -/
structure PlotRect where
  x : ℤ
  y : ℤ
  width : ℤ
  height : ℤ

/-- Right edge of a pygame `Rect`. -/
def PlotRect.right (r : PlotRect) : ℤ := r.x + r.width

/-- Python `int(...)`: truncation toward zero. -/
def pyInt (q : ℚ) : ℤ := if 0 ≤ q then ⌊q⌋ else ⌈q⌉

/-- Lines 1305-1307: the vertical (zero-voltage) crosshair is drawn at
`int(rect.right - norm * rect.width)` only when `0 <= norm <= 1`; otherwise
no line is drawn at all. -/
def crosshair_x_line (r : PlotRect) (norm : ℚ) : Option ℤ :=
  if 0 ≤ norm ∧ norm ≤ 1 then some (pyInt ((r.right : ℚ) - norm * (r.width : ℚ)))
  else none

/-- Lines 1309-1311: the horizontal (zero-current) crosshair is drawn at
`int(rect.top + norm * rect.height)` only when `0 <= norm <= 1`; otherwise
no line is drawn at all. -/
def crosshair_y_line (r : PlotRect) (norm : ℚ) : Option ℤ :=
  if 0 ≤ norm ∧ norm ≤ 1 then some (pyInt ((r.y : ℚ) + norm * (r.height : ℚ)))
  else none

/-- Modelled from the spec: the spec's fixed-scale draw variant A
(floor-ratio Y form), `normalizedY = floorRatio + current/(yMax - yMin)`
clamped to [0, 1].  No such mapping exists anywhere in src/PyCurveBug.py
(the constant `FLOOR_RATIO` of line 53 is never used); this definition
follows the spec's words so the code's actual mapping can be compared
against it. -/
def specFloorRatioYNorm (current ymin ymax : ℚ) : ℚ :=
  max 0 (min 1 (floorRatio + current / (ymax - ymin)))

/-! ## Concrete example inputs -/

/-- A 2016-byte buffer whose first three little-endian u16 values are
2048, 2000, 2100 (bytes `00 08 d0 07 34 08`), all remaining bytes zero. -/
def exBuf : List ℕ := [0, 8, 208, 7, 52, 8] ++ List.replicate 2010 0

/-- The initial state switched to alternating excitation mode
(`excitation_mode = 2`). -/
def altState : AcquireState := { initState with excitation_mode := 2 }

/-- A state whose current dataset has voltage range [1000, 1200] and
current range [-50, 50] on both channels. -/
def fitExState : AcquireState :=
  { initState with ch1 := [-50, 50], ch2 := [-50, 50],
                   ch1_voltage := [1000, 1200], ch2_voltage := [1000, 1200] }

/-- A state whose current dataset has all voltages equal to 5. -/
def constState : AcquireState :=
  { initState with ch1 := [0], ch2 := [0], ch1_voltage := [5], ch2_voltage := [5] }

/-- A state whose current dataset has currents in [100, 200], so the
auto-scaled current domain [90, 210] does not contain zero. -/
def posCurState : AcquireState :=
  { initState with ch1 := [100, 200], ch2 := [100, 200],
                   ch1_voltage := [0], ch2_voltage := [0] }

/-! ## Lemmas -/

/-! ### Codec lemmas -/

theorem unpackWords_length : ∀ l : List ℕ, (unpackWords l).length = l.length / 2
  | [] => rfl
  | [_] => by simp [unpackWords]
  | _ :: _ :: rest => by
      have ih := unpackWords_length rest
      simp only [unpackWords, List.length_cons, ih]
      omega

theorem unpackWords_getD : ∀ (l : List ℕ) (i : ℕ), i < (unpackWords l).length →
    (unpackWords l).getD i 0 = (((l.getD (2 * i) 0) + 256 * (l.getD (2 * i + 1) 0)) &&& 4095 : ℕ)
  | [], i, h => by simp [unpackWords] at h
  | [_], i, h => by simp [unpackWords] at h
  | lo :: hi :: rest, 0, _ => by
      simp [unpackWords, u16le, List.getD_cons_zero, List.getD_cons_succ]
  | lo :: hi :: rest, i + 1, h => by
      have h' : i < (unpackWords rest).length := by
        simpa [unpackWords] using h
      have ih := unpackWords_getD rest i h'
      have e1 : 2 * (i + 1) = (2 * i + 1) + 1 := by ring
      have e2 : 2 * (i + 1) + 1 = (2 * i + 1 + 1) + 1 := by ring
      simp only [unpackWords, List.getD_cons_succ, ih, e1, e2]

theorem unpackWords_mem_bounds : ∀ l : List ℕ, ∀ v ∈ unpackWords l, 0 ≤ v ∧ v ≤ 4095
  | lo :: hi :: rest, v, hv => by
      rcases List.mem_cons.mp hv with h | h
      · subst h
        constructor
        · exact Int.ofNat_nonneg _
        · exact_mod_cast (Nat.and_le_right : u16le lo hi &&& 4095 ≤ 4095)
      · exact unpackWords_mem_bounds rest v h
  | [], v, hv => by simp [unpackWords] at hv
  | [_], v, hv => by simp [unpackWords] at hv

theorem everyThird_length : ∀ l : List ℤ, (everyThird l).length = (l.length + 2) / 3
  | [] => rfl
  | [_] => by simp [everyThird]
  | [_, _] => by simp [everyThird]
  | _ :: _ :: _ :: rest => by
      have ih := everyThird_length rest
      simp only [everyThird, List.length_cons, ih]
      omega

theorem getD_big {l : List ℤ} {i : ℕ} (d : ℤ) (h : l.length ≤ i) : l.getD i d = d := by
  simp [List.getD, List.getElem?_eq_none h]

theorem everyThird_getD : ∀ (l : List ℤ) (i : ℕ) (d : ℤ),
    (everyThird l).getD i d = l.getD (3 * i) d
  | [], i, d => by simp [everyThird]
  | [a], i, d => by
      cases i with
      | zero => rfl
      | succ n =>
        rw [getD_big d (by simp [everyThird]), getD_big d (by simp; omega)]
  | [a, b], i, d => by
      cases i with
      | zero => rfl
      | succ n =>
        rw [getD_big d (by simp [everyThird]), getD_big d (by simp; omega)]
  | a :: b :: c :: rest, i, d => by
      cases i with
      | zero => rfl
      | succ n =>
        have ih := everyThird_getD rest n d
        have e : 3 * (n + 1) = (3 * n + 1 + 1) + 1 := by ring
        simp only [everyThird, List.getD_cons_succ, ih, e]

theorem everyThird_subset : ∀ l : List ℤ, ∀ v ∈ everyThird l, v ∈ l
  | [], v, hv => by simp [everyThird] at hv
  | [a], v, hv => by simpa [everyThird] using hv
  | [a, b], v, hv => by
      simp only [everyThird, List.mem_singleton] at hv
      simp [hv]
  | a :: b :: c :: rest, v, hv => by
      rcases List.mem_cons.mp hv with h | h
      · simp [h]
      · have := everyThird_subset rest v h
        simp [this]

theorem getD_drop (l : List ℤ) (n i : ℕ) (d : ℤ) :
    (l.drop n).getD i d = l.getD (n + i) d := by
  simp [List.getD, List.getElem?_drop]

theorem deriveCurrents_getD (drive ch : List ℤ) (i : ℕ) (h : i < drive.length) :
    (deriveCurrents drive ch).getD i 0 = drive.getD i 0 - ch.getD i 0 := by
  unfold deriveCurrents
  simp [List.getD, List.getElem?_map, List.getElem?_range h]

theorem decodeFrame_isSome (data : List ℕ) :
    (decodeFrame data).isSome ↔ data.length = 2016 := by
  unfold decodeFrame
  by_cases h : data.length = 2016
  · have hw : (unpackWords data).length = 1008 := by
      rw [unpackWords_length, h]
    simp [h, hw]
  · simp [h]

theorem decodeFrame_eq_some {data : List ℕ} {d c1 c2 : List ℤ}
    (h : decodeFrame data = some (d, c1, c2)) :
    data.length = 2016 ∧
    d = everyThird (unpackWords data) ∧
    c1 = everyThird ((unpackWords data).drop 1) ∧
    c2 = everyThird ((unpackWords data).drop 2) := by
  by_cases hl : data.length = 2016
  · have hw : (unpackWords data).length = 1008 := by
      rw [unpackWords_length, hl]
    rw [decodeFrame, if_neg (by simp [hl]), if_neg (by simp [hw])] at h
    simp only [Option.some.injEq, Prod.mk.injEq] at h
    exact ⟨hl, h.1.symm, h.2.1.symm, h.2.2.symm⟩
  · rw [decodeFrame, if_pos (by simp [hl])] at h
    simp at h

/-! ### Acquisition lemmas -/

theorem chooseCommand_state (st : AcquireState) :
    (chooseCommand st).2.2 =
      if st.excitation_mode = 0 ∨ st.excitation_mode = 1 then st
      else { st with alt_use_weak := !st.alt_use_weak } := by
  unfold chooseCommand
  split_ifs with h0 h1 h2 h3 <;> simp_all

theorem acquire_ok_iff (st : AcquireState) (data : List ℕ) :
    (acquire st (.received data)).ok = true ↔ data.length = 2016 := by
  simp only [acquire]
  rcases hd : decodeFrame data with _ | ⟨d, c1, c2⟩
  · have h2 : ¬ (decodeFrame data).isSome := by simp [hd]
    rw [decodeFrame_isSome] at h2
    simp [h2]
  · have h2 : (decodeFrame data).isSome := by simp [hd]
    rw [decodeFrame_isSome] at h2
    simp [h2]

theorem acquire_closed (st : AcquireState) :
    acquire st .closed = ⟨false, none, st⟩ := rfl

theorem acquire_failure_state (st : AcquireState) (inp : SerialInput)
    (h : (acquire st inp).ok = false) :
    ((acquire st inp).state.ch1_std = st.ch1_std ∧
     (acquire st inp).state.ch2_std = st.ch2_std ∧
     (acquire st inp).state.ch1_voltage_std = st.ch1_voltage_std ∧
     (acquire st inp).state.ch2_voltage_std = st.ch2_voltage_std ∧
     (acquire st inp).state.drive_voltage_std = st.drive_voltage_std) ∧
    ((acquire st inp).state.ch1_weak = st.ch1_weak ∧
     (acquire st inp).state.ch2_weak = st.ch2_weak ∧
     (acquire st inp).state.ch1_voltage_weak = st.ch1_voltage_weak ∧
     (acquire st inp).state.ch2_voltage_weak = st.ch2_voltage_weak ∧
     (acquire st inp).state.drive_voltage_weak = st.drive_voltage_weak) ∧
    ((acquire st inp).state.ch1 = st.ch1 ∧
     (acquire st inp).state.ch2 = st.ch2 ∧
     (acquire st inp).state.ch1_voltage = st.ch1_voltage ∧
     (acquire st inp).state.ch2_voltage = st.ch2_voltage ∧
     (acquire st inp).state.drive_voltage = st.drive_voltage) := by
  rcases inp with _ | data
  · simp [acquire_closed]
  · simp only [acquire] at h ⊢
    rcases hd : decodeFrame data with _ | ⟨d, c1, c2⟩
    · rw [chooseCommand_state]
      split_ifs <;> simp
    · rw [hd] at h
      simp at h

theorem acquire_success_fields (st : AcquireState) (data : List ℕ) {d c1 c2 : List ℤ}
    (hd : decodeFrame data = some (d, c1, c2)) :
    (acquire st (.received data)).ok = true ∧
    (acquire st (.received data)).state.drive_voltage = d ∧
    (acquire st (.received data)).state.ch1_voltage = c1 ∧
    (acquire st (.received data)).state.ch2_voltage = c2 ∧
    (acquire st (.received data)).state.ch1 = deriveCurrents d c1 ∧
    (acquire st (.received data)).state.ch2 = deriveCurrents d c2 := by
  simp only [acquire]
  rw [hd]
  split_ifs <;> simp

theorem acquire_sent_mode2 (st : AcquireState) (data : List ℕ)
    (h : st.excitation_mode = 2) :
    (acquire st (.received data)).sent
        = some (if st.alt_use_weak then Command.W else Command.T) ∧
    (acquire st (.received data)).state.alt_use_weak = !st.alt_use_weak ∧
    (acquire st (.received data)).state.excitation_mode = 2 := by
  have hc : chooseCommand st
      = ((if st.alt_use_weak then Command.W else Command.T), st.alt_use_weak,
         { st with alt_use_weak := !st.alt_use_weak }) := by
    unfold chooseCommand
    rw [if_neg (by omega), if_neg (by omega)]
  simp only [acquire]
  rcases hd : decodeFrame data with _ | ⟨d, c1, c2⟩
  · simp [hc, h]
  · rw [hc]
    split_ifs <;> simp [h]

/-! ### View lemmas -/

theorem foldl_min_le (l : List ℤ) : ∀ a : ℤ, l.foldl min a ≤ a := by
  induction l with
  | nil => intro a; simp
  | cons b t ih =>
    intro a
    calc (b :: t).foldl min a = t.foldl min (min a b) := rfl
    _ ≤ min a b := ih (min a b)
    _ ≤ a := min_le_left a b

theorem le_foldl_max (l : List ℤ) : ∀ a : ℤ, a ≤ l.foldl max a := by
  induction l with
  | nil => intro a; simp
  | cons b t ih =>
    intro a
    calc a ≤ max a b := le_max_left a b
    _ ≤ t.foldl max (max a b) := ih (max a b)
    _ = (b :: t).foldl max a := rfl

theorem listMin_le_listMax : ∀ l : List ℤ, listMin l ≤ listMax l
  | [] => le_refl 0
  | a :: rest =>
      le_trans (foldl_min_le rest a) (le_foldl_max rest a)

theorem autoMargin_of_lt {lo hi : ℚ} (h : lo < hi) :
    autoMargin lo hi = (lo - (hi - lo) * (1 / 10), hi + (hi - lo) * (1 / 10)) := by
  simp only [autoMargin, if_pos h]
  rw [if_neg (by intro e; nlinarith)]

theorem autoMargin_of_eq {lo hi : ℚ} (h : lo = hi) :
    autoMargin lo hi = (lo - 100, lo + 100) := by
  subst h
  simp only [autoMargin, if_neg (lt_irrefl lo)]
  rw [if_neg (by intro e; linarith)]

theorem autoMargin_width_pos {lo hi : ℚ} (h : lo ≤ hi) :
    (autoMargin lo hi).1 < (autoMargin lo hi).2 := by
  rcases lt_or_eq_of_le h with hlt | heq
  · rw [autoMargin_of_lt hlt]
    simp only
    nlinarith
  · rw [autoMargin_of_eq heq]
    simp only
    linarith

theorem autoScaleDomain_x_width_pos (st : AcquireState) :
    (autoScaleDomain st).1.1 < (autoScaleDomain st).1.2 :=
  autoMargin_width_pos (by exact_mod_cast listMin_le_listMax (selData st).1)

theorem autoScaleDomain_y_width_pos (st : AcquireState) :
    (autoScaleDomain st).2.1 < (autoScaleDomain st).2.2 :=
  autoMargin_width_pos (by exact_mod_cast listMin_le_listMax (selData st).2)

theorem fit_to_window_of_empty (st : AcquireState) (v : ViewState)
    (h : st.ch1 = [] ∨ st.ch2 = []) : fit_to_window st v = v := by
  rcases h with h | h <;> simp [fit_to_window, h]

theorem clampMin_pos {zx zy : ℚ} (hx : 0 < zx) (hy : 0 < zy) :
    0 < (if 1 < min zx zy then 1 else min zx zy) := by
  split_ifs with h
  · norm_num
  · exact lt_min_iff.mpr ⟨hx, hy⟩

theorem zoomFactor_pos {c r : ℚ} (hc : 0 < c) : 0 < (if 0 < r then c / r else 1) := by
  split_ifs with h
  · exact div_pos hc h
  · norm_num

theorem fit_to_window_zoom_pos (st : AcquireState) (v : ViewState)
    (hv : 0 < v.zoom_level) : 0 < (fit_to_window st v).zoom_level := by
  by_cases hg : st.ch1 = [] ∨ st.ch2 = []
  · rw [fit_to_window_of_empty st v hg]
    exact hv
  · simp only [fit_to_window, if_neg hg, ADC_MAX]
    exact clampMin_pos (zoomFactor_pos (by norm_num)) (zoomFactor_pos (by norm_num))

theorem fit_to_window_eq (st : AcquireState) (v : ViewState)
    (h1 : st.ch1 ≠ []) (h2 : st.ch2 ≠ [])
    (hx : listMin (selData st).1 < listMax (selData st).1)
    (hy : listMin (selData st).2 < listMax (selData st).2) :
    fit_to_window st v =
      { zoom_level :=
          min (min (2800 / ((7 / 5) * ((listMax (selData st).1 : ℚ) - (listMin (selData st).1 : ℚ))))
                   (2100 / ((7 / 5) * ((listMax (selData st).2 : ℚ) - (listMin (selData st).2 : ℚ))))) 1,
        pan_offset_x := ((listMin (selData st).1 : ℚ) + (listMax (selData st).1 : ℚ)) / 2 - 1400,
        pan_offset_y := ((listMin (selData st).2 : ℚ) + (listMax (selData st).2 : ℚ)) / 2 + 1575 / 2 } := by
  have hg : ¬ (st.ch1 = [] ∨ st.ch2 = []) := by
    rintro (h | h)
    · exact h1 h
    · exact h2 h
  simp only [fit_to_window, if_neg hg, ADC_MAX]
  set A : ℚ := ((listMin (selData st).1 : ℤ) : ℚ) with hA
  set B : ℚ := ((listMax (selData st).1 : ℤ) : ℚ) with hB
  set C : ℚ := ((listMin (selData st).2 : ℤ) : ℚ) with hC
  set D : ℚ := ((listMax (selData st).2 : ℤ) : ℚ) with hD
  have hAB : A < B := by rw [hA, hB]; exact_mod_cast hx
  have hCD : C < D := by rw [hC, hD]; exact_mod_cast hy
  have erx : B + (B - A) * (2 / 10) - (A - (B - A) * (2 / 10)) = (7 / 5) * (B - A) := by
    ring
  have ery : D + (D - C) * (2 / 10) - (C - (D - C) * (2 / 10)) = (7 / 5) * (D - C) := by
    ring
  rw [erx, ery, if_pos (by nlinarith : (0:ℚ) < (7 / 5) * (B - A)),
      if_pos (by nlinarith : (0:ℚ) < (7 / 5) * (D - C))]
  have ebx : (2800 : ℚ) - 0 = 2800 := by norm_num
  have eby : ((2800 : ℚ) - 700) / 8 - -(2800 - 700) * 7 / 8 = 2100 := by norm_num
  rw [ebx, eby]
  have eclamp : ∀ z : ℚ, (if 1 < z then 1 else z) = min z 1 := by
    intro z
    rcases le_or_lt z 1 with h | h
    · rw [if_neg (not_lt.mpr h), min_eq_left h]
    · rw [if_pos h, min_eq_right h.le]
  rw [eclamp]
  congr 1 <;> ring

theorem fixed_domain_init :
    (fixedScaleDomain initView).2.1 = -3675 / 2 ∧
    (fixedScaleDomain initView).2.2 = 525 / 2 := by
  constructor <;> norm_num [fixedScaleDomain, ADC_MAX, initView]

theorem fixedScaleDomain_x_width (v : ViewState) :
    (fixedScaleDomain v).1.2 - (fixedScaleDomain v).1.1 = 2800 / v.zoom_level := by
  simp only [fixedScaleDomain, ADC_MAX]
  ring

/-! ## Claims -/

/-- Claim C1: for every byte buffer accumulated in one acquisition, the
decode (and hence `acquire`) succeeds exactly when the buffer is 2016 bytes
long; a successful decode yields exactly 336 triples, the buffer being read
as 1008 consecutive little-endian u16 values each masked with 0x0FFF (so
every decoded value lies in 0..4095), with element 3k the drive, 3k+1 the
dut1 voltage and 3k+2 the dut2 voltage of triple k. -/
theorem claim1_frame_decode (data : List ℕ) :
    ((decodeFrame data).isSome ↔ data.length = 2016) ∧
    (∀ st : AcquireState, (acquire st (.received data)).ok = true ↔ data.length = 2016) ∧
    (∀ d c1 c2 : List ℤ, decodeFrame data = some (d, c1, c2) →
      d.length = 336 ∧ c1.length = 336 ∧ c2.length = 336 ∧
      (∀ v ∈ d, 0 ≤ v ∧ v ≤ 4095) ∧
      (∀ v ∈ c1, 0 ≤ v ∧ v ≤ 4095) ∧
      (∀ v ∈ c2, 0 ≤ v ∧ v ≤ 4095) ∧
      (∀ i, i < 1008 → (unpackWords data).getD i 0 =
        (((data.getD (2 * i) 0) + 256 * (data.getD (2 * i + 1) 0)) &&& 4095 : ℕ)) ∧
      (∀ k, k < 336 →
        d.getD k 0 = (unpackWords data).getD (3 * k) 0 ∧
        c1.getD k 0 = (unpackWords data).getD (3 * k + 1) 0 ∧
        c2.getD k 0 = (unpackWords data).getD (3 * k + 2) 0)) := by
  refine ⟨decodeFrame_isSome data, fun st => acquire_ok_iff st data, ?_⟩
  intro d c1 c2 h
  obtain ⟨hl, hd, hc1, hc2⟩ := decodeFrame_eq_some h
  have hw : (unpackWords data).length = 1008 := by
    rw [unpackWords_length, hl]
  refine ⟨?_, ?_, ?_, ?_, ?_, ?_, ?_, ?_⟩
  · rw [hd, everyThird_length, hw]
  · rw [hc1, everyThird_length, List.length_drop, hw]
  · rw [hc2, everyThird_length, List.length_drop, hw]
  · intro v hv
    rw [hd] at hv
    exact unpackWords_mem_bounds data v (everyThird_subset _ v hv)
  · intro v hv
    rw [hc1] at hv
    exact unpackWords_mem_bounds data v
      (List.mem_of_mem_drop (everyThird_subset _ v hv))
  · intro v hv
    rw [hc2] at hv
    exact unpackWords_mem_bounds data v
      (List.mem_of_mem_drop (everyThird_subset _ v hv))
  · intro i hi
    exact unpackWords_getD data i (by rw [hw]; exact hi)
  · intro k hk
    refine ⟨?_, ?_, ?_⟩
    · rw [hd, everyThird_getD]
    · rw [hc1, everyThird_getD, getD_drop]
      congr 1
      omega
    · rw [hc2, everyThird_getD, getD_drop]
      congr 1
      omega

/-- Witness for C1 at the concrete 2016-byte buffer `exBuf`. -/
theorem claim1_frame_decode_witness :
    (decodeFrame exBuf).isSome ∧
    (decodeFrame exBuf).map (fun t => (t.1.length, t.2.1.length, t.2.2.length))
      = some (336, 336, 336) := by
  have h := claim1_frame_decode exBuf
  have hlen : exBuf.length = 2016 := by
    rw [exBuf, List.length_append, List.length_replicate]
    norm_num
  have hsome : (decodeFrame exBuf).isSome := h.1.mpr hlen
  rcases hs : decodeFrame exBuf with _ | ⟨d, c1, c2⟩
  · rw [hs] at hsome
    simp at hsome
  · have hl := h.2.2 d c1 c2 hs
    simp [hs, hl.1, hl.2.1, hl.2.2.1]

/-- Claim C2: for every successful acquisition and sample index, the derived
current is exactly `drive - dutVoltage` for each DUT, as exact signed
integer arithmetic with no clamping; in particular the 2016-byte buffer
with first u16 values 2048, 2000, 2100 decodes to drive 2048, dut voltages
2000 and 2100, and currents 48 and -52 for sample 0. -/
theorem claim2_current_derivation :
    (∀ (st : AcquireState) (data : List ℕ) (i : ℕ),
      (acquire st (.received data)).ok = true →
      i < (acquire st (.received data)).state.drive_voltage.length →
      (acquire st (.received data)).state.ch1.getD i 0
        = (acquire st (.received data)).state.drive_voltage.getD i 0
          - (acquire st (.received data)).state.ch1_voltage.getD i 0 ∧
      (acquire st (.received data)).state.ch2.getD i 0
        = (acquire st (.received data)).state.drive_voltage.getD i 0
          - (acquire st (.received data)).state.ch2_voltage.getD i 0) ∧
    ((acquire initState (.received exBuf)).ok = true ∧
     (acquire initState (.received exBuf)).state.drive_voltage.getD 0 0 = 2048 ∧
     (acquire initState (.received exBuf)).state.ch1_voltage.getD 0 0 = 2000 ∧
     (acquire initState (.received exBuf)).state.ch2_voltage.getD 0 0 = 2100 ∧
     (acquire initState (.received exBuf)).state.ch1.getD 0 0 = 48 ∧
     (acquire initState (.received exBuf)).state.ch2.getD 0 0 = -52) := by
  constructor
  · intro st data i hok hi
    rcases hd : decodeFrame data with _ | ⟨d, c1, c2⟩
    · have : (decodeFrame data).isSome := by
        rw [decodeFrame_isSome]
        exact (acquire_ok_iff st data).mp hok
      rw [hd] at this
      simp at this
    · obtain ⟨-, hdr, hv1, hv2, hch1, hch2⟩ := acquire_success_fields st data hd
      rw [hdr] at hi
      rw [hdr, hv1, hv2, hch1, hch2, deriveCurrents_getD d c1 i hi,
          deriveCurrents_getD d c2 i hi]
      exact ⟨rfl, rfl⟩
  · have hlen : exBuf.length = 2016 := by
      rw [exBuf, List.length_append, List.length_replicate]
      norm_num
    have hsome : (decodeFrame exBuf).isSome := (decodeFrame_isSome exBuf).mpr hlen
    rcases hs : decodeFrame exBuf with _ | ⟨d, c1, c2⟩
    · rw [hs] at hsome
      simp at hsome
    · obtain ⟨hok, hdr, hv1, hv2, hch1, hch2⟩ := acquire_success_fields initState exBuf hs
      obtain ⟨-, hd, hc1, hc2⟩ := decodeFrame_eq_some hs
      have hw : (unpackWords exBuf).length = 1008 := by
        rw [unpackWords_length, hlen]
      have w0 : (unpackWords exBuf).getD 0 0 = 2048 := by
        rw [unpackWords_getD exBuf 0 (by rw [hw]; norm_num)]
        decide
      have w1 : (unpackWords exBuf).getD 1 0 = 2000 := by
        rw [unpackWords_getD exBuf 1 (by rw [hw]; norm_num)]
        decide
      have w2 : (unpackWords exBuf).getD 2 0 = 2100 := by
        rw [unpackWords_getD exBuf 2 (by rw [hw]; norm_num)]
        decide
      have hd0 : d.getD 0 0 = 2048 := by
        rw [hd, everyThird_getD]
        simpa using w0
      have hc10 : c1.getD 0 0 = 2000 := by
        rw [hc1, everyThird_getD, getD_drop]
        simpa using w1
      have hc20 : c2.getD 0 0 = 2100 := by
        rw [hc2, everyThird_getD, getD_drop]
        simpa using w2
      have hdlen : 0 < d.length := by
        rw [hd, everyThird_length, hw]
        norm_num
      refine ⟨hok, ?_, ?_, ?_, ?_, ?_⟩
      · rw [hdr, hd0]
      · rw [hv1, hc10]
      · rw [hv2, hc20]
      · rw [hch1, deriveCurrents_getD d c1 0 hdlen, hd0, hc10]
        norm_num
      · rw [hch2, deriveCurrents_getD d c2 0 hdlen, hd0, hc20]
        norm_num

/-- Witness for C2 at sample 0 of the concrete buffer `exBuf`. -/
theorem claim2_current_derivation_witness :
    (acquire initState (.received exBuf)).state.ch1.getD 0 0
      = (acquire initState (.received exBuf)).state.drive_voltage.getD 0 0
        - (acquire initState (.received exBuf)).state.ch1_voltage.getD 0 0 := by
  have hlen : exBuf.length = 2016 := by
    rw [exBuf, List.length_append, List.length_replicate]
    norm_num
  have hsome : (decodeFrame exBuf).isSome := (decodeFrame_isSome exBuf).mpr hlen
  rcases hs : decodeFrame exBuf with _ | ⟨d, c1, c2⟩
  · rw [hs] at hsome
    simp at hsome
  · obtain ⟨hok, hdr, -, -, -, -⟩ := acquire_success_fields initState exBuf hs
    obtain ⟨-, hd, -, -⟩ := decodeFrame_eq_some hs
    have hw : (unpackWords exBuf).length = 1008 := by
      rw [unpackWords_length, hlen]
    refine (claim2_current_derivation.1 initState exBuf 0 hok ?_).1
    rw [hdr, hd, everyThird_length, hw]
    norm_num

/-- Claim C3: every failing `acquire` call — stream not open, fewer than
2016 bytes by the deadline, or a wrong decoded value count — leaves all five
sequences of both mode buffer sets and the selector's current-display
sequences exactly equal to their pre-call values. -/
theorem claim3_failure_atomic (st : AcquireState) (inp : SerialInput)
    (h : (acquire st inp).ok = false) :
    ((acquire st inp).state.ch1_std = st.ch1_std ∧
     (acquire st inp).state.ch2_std = st.ch2_std ∧
     (acquire st inp).state.ch1_voltage_std = st.ch1_voltage_std ∧
     (acquire st inp).state.ch2_voltage_std = st.ch2_voltage_std ∧
     (acquire st inp).state.drive_voltage_std = st.drive_voltage_std) ∧
    ((acquire st inp).state.ch1_weak = st.ch1_weak ∧
     (acquire st inp).state.ch2_weak = st.ch2_weak ∧
     (acquire st inp).state.ch1_voltage_weak = st.ch1_voltage_weak ∧
     (acquire st inp).state.ch2_voltage_weak = st.ch2_voltage_weak ∧
     (acquire st inp).state.drive_voltage_weak = st.drive_voltage_weak) ∧
    ((acquire st inp).state.ch1 = st.ch1 ∧
     (acquire st inp).state.ch2 = st.ch2 ∧
     (acquire st inp).state.ch1_voltage = st.ch1_voltage ∧
     (acquire st inp).state.ch2_voltage = st.ch2_voltage ∧
     (acquire st inp).state.drive_voltage = st.drive_voltage) :=
  acquire_failure_state st inp h

/-- Witness for C3: a failing call with the stream not open leaves the
selector's current-display sequences unchanged. -/
theorem claim3_failure_atomic_witness :
    (acquire initState SerialInput.closed).state.ch1 = initState.ch1 :=
  ((claim3_failure_atomic initState SerialInput.closed rfl).2.2).1

/-- Counterexample to claim C4 as stated: an alternating-mode `acquire`
call made while the stream is not open fails and leaves the internal
flip-flop `alt_use_weak` unchanged (and sends nothing), contradicting
"the internal flip-flop toggles on each call regardless of whether the call
succeeds or fails". -/
theorem claim4_counterexample :
    (acquire altState SerialInput.closed).ok = false ∧
    (acquire altState SerialInput.closed).sent = none ∧
    altState.excitation_mode = 2 ∧
    altState.alt_use_weak = false ∧
    (acquire altState SerialInput.closed).state.alt_use_weak = false :=
  ⟨rfl, rfl, rfl, rfl, rfl⟩

/-- Claim C4 (amended): in alternating mode, every `acquire` call on which a
command is actually sent (the stream is open) sends the token selected by the
flip-flop and toggles the flip-flop, regardless of whether the exchange then
succeeds or fails; hence two consecutive token-sending calls never send the
same token.  A call made while the stream is not open sends nothing and
leaves the state (including the flip-flop) unchanged. -/
theorem claim4_alternating_tokens (st : AcquireState) (d1 d2 : List ℕ)
    (h : st.excitation_mode = 2) :
    (acquire st (.received d1)).sent
      = some (if st.alt_use_weak then Command.W else Command.T) ∧
    (acquire st (.received d1)).state.alt_use_weak = !st.alt_use_weak ∧
    (acquire (acquire st (.received d1)).state (.received d2)).sent
      ≠ (acquire st (.received d1)).sent ∧
    (∀ st' : AcquireState,
      (acquire st' SerialInput.closed).sent = none ∧
      (acquire st' SerialInput.closed).state = st') := by
  obtain ⟨hs1, ht1, hm1⟩ := acquire_sent_mode2 st d1 h
  obtain ⟨hs2, ht2, hm2⟩ := acquire_sent_mode2 (acquire st (.received d1)).state d2 hm1
  refine ⟨hs1, ht1, ?_, fun st' => ⟨rfl, rfl⟩⟩
  rw [hs1, hs2, ht1]
  cases hb : st.alt_use_weak <;> simp

/-- Witness for C4 (amended) at the concrete state `altState`. -/
theorem claim4_alternating_tokens_witness :
    (acquire altState (SerialInput.received [])).sent = some Command.T := by
  have h := claim4_alternating_tokens altState [] [] rfl
  simpa [altState, initState] using h.1

/-- Claim C5: for every non-empty dataset, fit-to-window sets the zoom to
`min (2800 / margined voltage span) (2100 / margined current span)` clamped
to at most 1 (each margined span is the data span widened by 20% per side,
i.e. 7/5 of the raw span) and re-centers the pan on the data's midpoint;
for an empty dataset it changes nothing.  In particular voltage range
[1000, 1200] with current range [-50, 50] yields exactly zoom 1 with the pan
recentered on (1100, 0). -/
theorem claim5_fit_to_window :
    (∀ (st : AcquireState) (v : ViewState),
      st.ch1 = [] ∨ st.ch2 = [] → fit_to_window st v = v) ∧
    (∀ (st : AcquireState) (v : ViewState),
      st.ch1 ≠ [] → st.ch2 ≠ [] →
      listMin (selData st).1 < listMax (selData st).1 →
      listMin (selData st).2 < listMax (selData st).2 →
      fit_to_window st v =
        { zoom_level :=
            min (min (2800 / ((7 / 5) * ((listMax (selData st).1 : ℚ) - (listMin (selData st).1 : ℚ))))
                     (2100 / ((7 / 5) * ((listMax (selData st).2 : ℚ) - (listMin (selData st).2 : ℚ))))) 1,
          pan_offset_x := ((listMin (selData st).1 : ℚ) + (listMax (selData st).1 : ℚ)) / 2 - 1400,
          pan_offset_y := ((listMin (selData st).2 : ℚ) + (listMax (selData st).2 : ℚ)) / 2 + 1575 / 2 }) ∧
    fit_to_window fitExState initView = ⟨1, -300, 1575 / 2⟩ := by
  refine ⟨fit_to_window_of_empty, fit_to_window_eq, ?_⟩
  have h := fit_to_window_eq fitExState initView (by decide) (by decide) (by decide) (by decide)
  have e1 : listMin (selData fitExState).1 = 1000 := by decide
  have e2 : listMax (selData fitExState).1 = 1200 := by decide
  have e3 : listMin (selData fitExState).2 = -50 := by decide
  have e4 : listMax (selData fitExState).2 = 50 := by decide
  rw [h, e1, e2, e3, e4]
  simp only [ViewState.mk.injEq]
  norm_num [min_def]

/-- Witness for C5 at the concrete state `fitExState`. -/
theorem claim5_fit_to_window_witness :
    fit_to_window fitExState initView = ⟨1, -300, 1575 / 2⟩ := by
  have h := claim5_fit_to_window.2.1 fitExState initView (by decide) (by decide)
      (by decide) (by decide)
  have e1 : listMin (selData fitExState).1 = 1000 := by decide
  have e2 : listMax (selData fitExState).1 = 1200 := by decide
  have e3 : listMin (selData fitExState).2 = -50 := by decide
  have e4 : listMax (selData fitExState).2 = 50 := by decide
  rw [h, e1, e2, e3, e4]
  simp only [ViewState.mk.injEq]
  norm_num [min_def]

/-- Counterexample to claim C6 as stated: for a dataset whose voltages are
all 5, the code's auto-scaled voltage domain is (-95, 105) — a fixed 100-unit
fallback margin per side — not the claimed 10%-margined domain widened by 1
unit (which would be (5, 6), or (9/2, 11/2) on the other reading). -/
theorem claim6_counterexample :
    (autoScaleDomain constState).1 = (-95, 105) ∧
    (autoScaleDomain constState).1 ≠ (5, 6) ∧
    (autoScaleDomain constState).1 ≠ (9 / 2, 11 / 2) := by
  have e1 : listMin (selData constState).1 = 5 := by decide
  have e2 : listMax (selData constState).1 = 5 := by decide
  have h : (autoScaleDomain constState).1 = (-95, 105) := by
    simp only [autoScaleDomain, e1, e2]
    rw [autoMargin_of_eq rfl]
    norm_num
  refine ⟨h, ?_, ?_⟩ <;> rw [h] <;> simp only [ne_eq, Prod.mk.injEq] <;> norm_num

/-- Claim C6 (amended): under the auto-scale policy, when the data min is
strictly below the data max each display domain is the data min/max expanded
by a 10% margin per side; when min equals max a fixed margin of 100 units is
applied per side (so the widen-by-1 safeguard that follows is unreachable);
in all cases the resulting domain width is strictly positive. -/
theorem claim6_auto_margin :
    (∀ lo hi : ℚ, lo < hi →
      autoMargin lo hi = (lo - (hi - lo) * (1 / 10), hi + (hi - lo) * (1 / 10))) ∧
    (∀ v : ℚ, autoMargin v v = (v - 100, v + 100)) ∧
    (∀ st : AcquireState,
      (autoScaleDomain st).1.1 < (autoScaleDomain st).1.2 ∧
      (autoScaleDomain st).2.1 < (autoScaleDomain st).2.2) := by
  refine ⟨fun lo hi h => autoMargin_of_lt h, fun v => autoMargin_of_eq rfl, ?_⟩
  intro st
  exact ⟨autoScaleDomain_x_width_pos st, autoScaleDomain_y_width_pos st⟩

/-- Witness for C6 (amended) at a concrete axis range. -/
theorem claim6_auto_margin_witness :
    autoMargin 0 1 = (0 - (1 - 0) * (1 / 10), 1 + (1 - 0) * (1 / 10)) :=
  claim6_auto_margin.1 0 1 (by norm_num)

/-- Counterexample to claim C7 as stated: for currents in [100, 200] the
auto-scaled current domain is [90, 210]; zero is not strictly inside it, yet
the zero-current line position is computed by the linear formula as -3/4,
not the claimed midline default 0.5. -/
theorem claim7_counterexample :
    (autoScaleDomain posCurState).2 = (90, 210) ∧
    ¬ ((90 : ℚ) < 0 ∧ (0 : ℚ) < 210) ∧
    zero_y_norm 90 210 = -3 / 4 ∧
    zero_y_norm 90 210 ≠ 1 / 2 := by
  have e1 : listMin (selData posCurState).2 = 100 := by decide
  have e2 : listMax (selData posCurState).2 = 200 := by decide
  have hz : zero_y_norm 90 210 = -3 / 4 := by
    rw [zero_y_norm, if_pos (by norm_num)]
    norm_num
  refine ⟨?_, by norm_num, hz, by rw [hz]; norm_num⟩
  simp only [autoScaleDomain, e1, e2]
  rw [autoMargin_of_lt (by norm_num)]
  norm_num

/-- Claim C7 (amended): the zero-current line's normalized position equals
`(0 - currentMin) / (currentMax - currentMin)` whenever the current domain
has nonzero width — whether or not zero lies inside it — and defaults to 0.5
exactly when `currentMax = currentMin`; under the auto-scale policy the
margined domain always has positive width, so the linear formula always
applies there. -/
theorem claim7_zero_line :
    (∀ ymin ymax : ℚ, ymax ≠ ymin →
      zero_y_norm ymin ymax = (0 - ymin) / (ymax - ymin)) ∧
    (∀ y : ℚ, zero_y_norm y y = 1 / 2) ∧
    (∀ st : AcquireState,
      zero_y_norm (autoScaleDomain st).2.1 (autoScaleDomain st).2.2
        = (0 - (autoScaleDomain st).2.1)
          / ((autoScaleDomain st).2.2 - (autoScaleDomain st).2.1)) := by
  refine ⟨?_, ?_, ?_⟩
  · intro ymin ymax h
    rw [zero_y_norm, if_pos h]
  · intro y
    rw [zero_y_norm, if_neg (by simp)]
  · intro st
    have h : (autoScaleDomain st).2.2 ≠ (autoScaleDomain st).2.1 :=
      ne_of_gt (autoScaleDomain_y_width_pos st)
    rw [zero_y_norm, if_pos h]

/-- Witness for C7 (amended) at the concrete domain [90, 210]. -/
theorem claim7_zero_line_witness :
    zero_y_norm 90 210 = (0 - 90) / (210 - 90) :=
  claim7_zero_line.1 90 210 (by norm_num)
/-- Counterexample to claim C8 as stated: on the fixed calibrated domain the
code's only Y-mapping (the unclamped linear form of `draw_trace`, used for
the fixed-scale trace) produces 179/168 > 1 at current 400, while the spec's
clamped floor-ratio variant produces 1 — so the fixed trace does not use a
clamped floor-ratio mode, and no second Y-mapping mode exists in the code. -/
theorem claim8_counterexample :
    trace_y_norm 400 ((fixedScaleDomain initView).2.1) ((fixedScaleDomain initView).2.2)
      = 179 / 168 ∧
    specFloorRatioYNorm 400 ((fixedScaleDomain initView).2.1) ((fixedScaleDomain initView).2.2)
      = 1 ∧
    (179 / 168 : ℚ) ≠ 1 ∧ 1 < (179 / 168 : ℚ) := by
  obtain ⟨hy1, hy2⟩ := fixed_domain_init
  rw [hy1, hy2]
  refine ⟨?_, ?_, by norm_num, by norm_num⟩
  · rw [trace_y_norm, if_pos (by norm_num)]
    norm_num
  · rw [specFloorRatioYNorm, floorRatio]
    norm_num [min_def, max_def]

/-- Claim C8 (amended): the code implements a single Y-mapping, the
unclamped linear form `(current - yMin) / (yMax - yMin)` of `draw_trace`,
used for the fixed-scale, pan/zoom and auto-scale traces alike; no clamped
floor-ratio mode exists (the constant `FLOOR_RATIO` is never used).  On the
fixed calibrated domain the linear form coincides with the unclamped
floor-ratio expression `floorRatio + current / (yMax - yMin)`, so the 7/8
baseline placement arises from the asymmetric fixed domain rather than from
a distinct mapping mode. -/
theorem claim8_single_y_form :
    (∀ c ymin ymax : ℚ, ymax ≠ ymin →
      trace_y_norm c ymin ymax = (c - ymin) / (ymax - ymin)) ∧
    (∀ c : ℚ,
      trace_y_norm c ((fixedScaleDomain initView).2.1) ((fixedScaleDomain initView).2.2)
        = floorRatio
          + c / (((fixedScaleDomain initView).2.2) - ((fixedScaleDomain initView).2.1))) := by
  obtain ⟨hy1, hy2⟩ := fixed_domain_init
  refine ⟨?_, ?_⟩
  · intro c ymin ymax h
    rw [trace_y_norm, if_pos h]
  · intro c
    rw [hy1, hy2, trace_y_norm, if_pos (by norm_num), floorRatio]
    rw [div_add_div _ _ (by norm_num) (by norm_num), div_eq_div_iff (by norm_num) (by norm_num)]
    ring

/-- Witness for C8 (amended) at a concrete domain. -/
theorem claim8_single_y_form_witness :
    trace_y_norm 0 0 1 = (0 - 0) / (1 - 0) :=
  claim8_single_y_form.1 0 0 1 (by norm_num)

/-- Claim C9: starting from zoom 1.0, every view state reachable by wheel
zoom-in (times 1.2), wheel zoom-out (divide by 1.2 then clamp to at least
0.1), fit-to-window and reset-view has a strictly positive zoom factor; in
particular a wheel zoom-out always leaves the zoom at least 0.1. -/
theorem claim9_zoom_positive :
    (∀ v : ViewState, ReachableView v → 0 < v.zoom_level) ∧
    (∀ v : ViewState, 1 / 10 ≤ (viewStep v ViewOp.wheelZoomOut).zoom_level) := by
  constructor
  · intro v h
    induction h with
    | init => norm_num [initView]
    | step v' op h' ih =>
      cases op with
      | wheelZoomIn =>
        simp only [viewStep]
        exact mul_pos ih (by norm_num)
      | wheelZoomOut =>
        simp only [viewStep]
        exact lt_max_iff.mpr (Or.inl (by norm_num))
      | fit st => exact fit_to_window_zoom_pos st v' ih
      | reset => norm_num [viewStep, reset_view]
  · intro v
    simp only [viewStep]
    exact le_max_left _ _

/-- Witness for C9 at a concrete reachable state. -/
theorem claim9_zoom_positive_witness :
    0 < (viewStep initView ViewOp.wheelZoomOut).zoom_level :=
  claim9_zoom_positive.1 _ (ReachableView.step initView ViewOp.wheelZoomOut ReachableView.init)

/-- Claim C10: for both scales, the vertical zero-voltage crosshair's
normalized position is `(ADC_ORIGIN - xMin) / (xMax - xMin)` with
`ADC_ORIGIN = 2048` (the mid-scale ADC reference, not voltage 0), and each
crosshair is drawn only when its normalized position lies in [0, 1]; a
position outside [0, 1] yields no line at all (never a clamped or
repositioned one). -/
theorem claim10_crosshair :
    (∀ xmin xmax : ℚ, xmax ≠ xmin →
      zero_x_norm xmin xmax = (ADC_ORIGIN - xmin) / (xmax - xmin)) ∧
    (∀ st : AcquireState,
      zero_x_norm (autoScaleDomain st).1.1 (autoScaleDomain st).1.2
        = (ADC_ORIGIN - (autoScaleDomain st).1.1)
          / ((autoScaleDomain st).1.2 - (autoScaleDomain st).1.1)) ∧
    (∀ v : ViewState, 0 < v.zoom_level →
      zero_x_norm (fixedScaleDomain v).1.1 (fixedScaleDomain v).1.2
        = (ADC_ORIGIN - (fixedScaleDomain v).1.1)
          / ((fixedScaleDomain v).1.2 - (fixedScaleDomain v).1.1)) ∧
    (∀ (r : PlotRect) (n : ℚ), ¬ (0 ≤ n ∧ n ≤ 1) →
      crosshair_x_line r n = none ∧ crosshair_y_line r n = none) ∧
    (∀ (r : PlotRect) (n : ℚ), 0 ≤ n → n ≤ 1 →
      crosshair_x_line r n = some (pyInt ((r.right : ℚ) - n * (r.width : ℚ))) ∧
      crosshair_y_line r n = some (pyInt ((r.y : ℚ) + n * (r.height : ℚ)))) := by
  refine ⟨?_, ?_, ?_, ?_, ?_⟩
  · intro xmin xmax h
    rw [zero_x_norm, if_pos h]
  · intro st
    rw [zero_x_norm, if_pos (ne_of_gt (autoScaleDomain_x_width_pos st))]
  · intro v hv
    have hw := fixedScaleDomain_x_width v
    have hne : (fixedScaleDomain v).1.2 ≠ (fixedScaleDomain v).1.1 := by
      intro e
      have h0 : (2800 : ℚ) / v.zoom_level = 0 := by
        rw [← hw, e, sub_self]
      exact absurd h0 (div_ne_zero (by norm_num) (ne_of_gt hv))
    rw [zero_x_norm, if_pos hne]
  · intro r n h
    exact ⟨by rw [crosshair_x_line, if_neg h], by rw [crosshair_y_line, if_neg h]⟩
  · intro r n h0 h1
    exact ⟨by rw [crosshair_x_line, if_pos ⟨h0, h1⟩],
           by rw [crosshair_y_line, if_pos ⟨h0, h1⟩]⟩

/-- Witness for C10 at a concrete domain. -/
theorem claim10_crosshair_witness :
    zero_x_norm 0 1 = (ADC_ORIGIN - 0) / (1 - 0) :=
  claim10_crosshair.1 0 1 (by norm_num)

end PyCurveBug
